import Mathlib

/-!
Shallow embedding of the ciclo3d (GPXtruder Modern) GPX-to-polyhedron
pipeline: `src/js/utils.js` (Vincenty distance, geometry helpers),
`src/js/model-generator.js` (scanner, distance filter, path builder,
STL emitter) and the option collection / generation driver of `app.js`.

JavaScript numbers are modelled as exact rationals (`ℚ`).  The
transcendental functions of `Math` (sin, cos, tan, atan, atan2, sqrt, π)
and the 4-byte IEEE-754 float encoding used by `DataView.setFloat32`
have no exact rational counterpart, so they are passed explicitly as an
operation record `FloatOps`; theorems assume only the algebraic facts
they need about those operations (e.g. `sin 0 = 0`), facts that hold for
the exact real functions and for their IEEE double versions alike.
`NaN` is not representable in `ℚ`; the places where the JavaScript code
can produce one are modelled by `Option` or noted in comments.
-/

/-- The `Math` operations and float encodings the JavaScript code uses,
made explicit parameters of the embedding. -/
structure FloatOps where
  pi : ℚ
  sin : ℚ → ℚ
  cos : ℚ → ℚ
  tan : ℚ → ℚ
  atan : ℚ → ℚ
  atan2 : ℚ → ℚ → ℚ
  sqrt : ℚ → ℚ
  f32 : ℚ → List ℕ

/-- `toRad` closure of `distVincenty`: `deg * Math.PI / 180`. -/
def toRad (ops : FloatOps) (deg : ℚ) : ℚ :=
  deg * ops.pi / 180

/-- WGS84 semi-major axis `a` (metres), as in `distVincenty`. -/
def wgsA : ℚ := 6378137

/-- WGS84 semi-minor axis `b = 6356752.314245` metres. -/
def wgsB : ℚ := 6356752314245 / 1000000

/-- WGS84 flattening `f = 1 / 298.257223563`. -/
def wgsF : ℚ := 1000000000 / 298257223563

/-- Values carried out of the λ fixed-point loop of `distVincenty`
into the final distance formula. -/
structure VinState where
  sinSigma : ℚ
  cosSigma : ℚ
  sigma : ℚ
  cosSqAlpha : ℚ
  cos2SigmaM : ℚ

/-- Outcome of one execution of the loop body of `distVincenty`. -/
inductive VinStepOut where
  | coincident
  | converged (st : VinState) : VinStepOut
  | next (lambda : ℚ) : VinStepOut

/-- Outcome of the whole λ loop of `distVincenty`. -/
inductive VinLoopOut where
  | coincident
  | diverged
  | converged (st : VinState) : VinLoopOut

/-- Convergence threshold `1e-12` of the λ iteration. -/
def vinEps : ℚ := 1 / 1000000000000

/-- One execution of the do-while body of `distVincenty` at the current
`lambda`.  Returns `coincident` on the `sinSigma === 0` early return,
`converged st` when the new λ satisfies `|λ − λ'| ≤ 1e-12`, and
`next λ` otherwise.  The `isNaN(cos2SigmaM)` reset of the source fires
exactly when `cosSqAlpha = 0` and the numerator `2*sinU1*sinU2` is `0`
(the `0/0` case); when `cosSqAlpha = 0` with a nonzero numerator the
JavaScript value is infinite, which `ℚ` cannot represent — rational
division by zero yields `cosSigma` there instead (no claim depends on
that branch). -/
def vinStep (ops : FloatOps) (L sinU1 cosU1 sinU2 cosU2 lambda : ℚ) :
    VinStepOut :=
  let sinLambda := ops.sin lambda
  let cosLambda := ops.cos lambda
  let sinSigma := ops.sqrt
    ((cosU2 * sinLambda) * (cosU2 * sinLambda) +
      (cosU1 * sinU2 - sinU1 * cosU2 * cosLambda) *
      (cosU1 * sinU2 - sinU1 * cosU2 * cosLambda))
  if sinSigma = 0 then .coincident
  else
    let cosSigma := sinU1 * sinU2 + cosU1 * cosU2 * cosLambda
    let sigma := ops.atan2 sinSigma cosSigma
    let sinAlpha := cosU1 * cosU2 * sinLambda / sinSigma
    let cosSqAlpha := 1 - sinAlpha * sinAlpha
    let cos2SigmaM :=
      if cosSqAlpha = 0 ∧ sinU1 * sinU2 = 0 then 0
      else cosSigma - 2 * sinU1 * sinU2 / cosSqAlpha
    let C := wgsF / 16 * cosSqAlpha * (4 + wgsF * (4 - 3 * cosSqAlpha))
    let lambdaNew := L + (1 - C) * wgsF * sinAlpha *
      (sigma + C * sinSigma *
        (cos2SigmaM + C * cosSigma *
          (-1 + 2 * cos2SigmaM * cos2SigmaM)))
    if |lambdaNew - lambda| ≤ vinEps then
      .converged ⟨sinSigma, cosSigma, sigma, cosSqAlpha, cos2SigmaM⟩
    else .next lambdaNew

/-- The λ fixed-point loop of `distVincenty`.  `fuel` counts the extra
iterations still allowed after the current one; the source's
`iterLimit = 100` admits at most 100 body executions, so the loop is
entered with `fuel = 99`. -/
def vinLoop (ops : FloatOps) (L sinU1 cosU1 sinU2 cosU2 : ℚ)
    (fuel : ℕ) (lambda : ℚ) : VinLoopOut :=
  match vinStep ops L sinU1 cosU1 sinU2 cosU2 lambda with
  | .coincident => .coincident
  | .converged st => .converged st
  | .next lambdaNew =>
    match fuel with
    | 0 => .diverged
    | f + 1 => vinLoop ops L sinU1 cosU1 sinU2 cosU2 f lambdaNew

/-- `distVincenty(lat1, lon1, lat2, lon2)` of `src/js/utils.js`.
`none` models the `NaN` returned when the λ iteration does not converge
within 100 iterations. -/
def distVincenty (ops : FloatOps) (lat1 lon1 lat2 lon2 : ℚ) : Option ℚ :=
  let L := toRad ops (lon2 - lon1)
  let U1 := ops.atan ((1 - wgsF) * ops.tan (toRad ops lat1))
  let U2 := ops.atan ((1 - wgsF) * ops.tan (toRad ops lat2))
  let sinU1 := ops.sin U1
  let cosU1 := ops.cos U1
  let sinU2 := ops.sin U2
  let cosU2 := ops.cos U2
  match vinLoop ops L sinU1 cosU1 sinU2 cosU2 99 L with
  | .coincident => some 0
  | .diverged => none
  | .converged st =>
    let uSq := st.cosSqAlpha * (wgsA * wgsA - wgsB * wgsB) / (wgsB * wgsB)
    let bigA := 1 + uSq / 16384 *
      (4096 + uSq * (-768 + uSq * (320 - 175 * uSq)))
    let bigB := uSq / 1024 * (256 + uSq * (-128 + uSq * (74 - 47 * uSq)))
    let deltaSigma := bigB * st.sinSigma * (st.cos2SigmaM + bigB / 4 *
      (st.cosSigma * (-1 + 2 * st.cos2SigmaM * st.cos2SigmaM) -
        bigB / 6 * st.cos2SigmaM * (-3 + 4 * st.sinSigma * st.sinSigma) *
        (-3 + 4 * st.cos2SigmaM * st.cos2SigmaM)))
    some (wgsB * bigA * (st.sigma - deltaSigma))

/-- A trivial operation record satisfying the algebraic hypotheses used
by the coincidence theorems; it witnesses their satisfiability. -/
def zeroOps : FloatOps where
  pi := 0
  sin := fun _ => 0
  cos := fun _ => 1
  tan := fun _ => 0
  atan := fun _ => 0
  atan2 := fun _ _ => 0
  sqrt := fun _ => 0
  f32 := fun _ => [0, 0, 0, 0]

/-- If the body reports coincident endpoints, the whole λ loop does,
whatever fuel remains. -/
theorem vinLoop_of_step_coincident (ops : FloatOps)
    (L sinU1 cosU1 sinU2 cosU2 : ℚ) (fuel : ℕ) (lambda : ℚ)
    (h : vinStep ops L sinU1 cosU1 sinU2 cosU2 lambda = .coincident) :
    vinLoop ops L sinU1 cosU1 sinU2 cosU2 fuel lambda = .coincident := by
  rw [vinLoop.eq_def, h]

/-- With `sin 0 = 0` and `cos 0 = 1`, the loop body at `λ = 0` and equal
reduced latitudes hits the `sinSigma === 0` early return. -/
theorem vinStep_coincident_of_eq (ops : FloatOps)
    (hsin : ops.sin 0 = 0) (hcos : ops.cos 0 = 1)
    (hsqrt : ops.sqrt 0 = 0) (L s c : ℚ) :
    vinStep ops L s c s c 0 = .coincident := by
  have harg : (c * ops.sin 0) * (c * ops.sin 0) +
      (c * s - s * c * ops.cos 0) * (c * s - s * c * ops.cos 0) = 0 := by
    rw [hsin, hcos]; ring
  simp [vinStep, harg, hsqrt]

/-- C8: for identical endpoints the very first λ iteration computes
`sinSigma = 0` and `distVincenty` returns exactly `0`.  Only
`sin 0 = 0`, `cos 0 = 1` and `sqrt 0 = 0` are assumed of the `Math`
operations; all three hold for the exact real functions and for IEEE
doubles. -/
theorem distVincenty_coincident (ops : FloatOps)
    (hsin : ops.sin 0 = 0) (hcos : ops.cos 0 = 1)
    (hsqrt : ops.sqrt 0 = 0) (lat lon : ℚ) :
    distVincenty ops lat lon lat lon = some 0 := by
  have hL : toRad ops (lon - lon) = 0 := by
    simp [toRad]
  simp only [distVincenty, hL]
  rw [vinLoop_of_step_coincident]
  exact vinStep_coincident_of_eq ops hsin hcos hsqrt 0 _ _

/-- Witness for `distVincenty_coincident` at a concrete operation
record and point. -/
theorem distVincenty_coincident_app :
    distVincenty zeroOps 10 20 10 20 = some 0 :=
  distVincenty_coincident zeroOps rfl rfl rfl 10 20

/-! ## Data model: points and generation options -/

/-- A GPX point `[lon, lat, ele]` of `pts` in `generate`. -/
structure Pt3 where
  lon : ℚ
  lat : ℚ
  ele : ℚ
deriving DecidableEq

/-- The options record assembled by `collectOptions` in `app.js` and
consumed by `ModelGenerator.generate`. -/
structure Options where
  buffer : ℚ
  vertical : ℚ
  bedx : ℚ
  bedy : ℚ
  base : ℚ
  zcut : Bool
  zoverride : Bool
  zconstant : ℚ
  regionfit : Bool
  region_minx : ℚ
  region_maxx : ℚ
  region_miny : ℚ
  region_maxy : ℚ
  shapetype : ℕ
  projtype : ℕ
  projection : String
  markerInterval : ℚ
  smoothtype : ℕ
  smoothspan : ℚ
deriving DecidableEq

/-- JavaScript `Math.trunc`-style integer part (round toward zero), the
rounding used by the `%` remainder operator on numbers. -/
def jsTrunc (q : ℚ) : ℤ :=
  if 0 ≤ q then ⌊q⌋ else ⌈q⌉

/-- JavaScript `%` on numbers: remainder with the dividend's sign. -/
def jsFmod (x y : ℚ) : ℚ :=
  x - y * jsTrunc (x / y)

/-- `UTM.zone(lon)` of `src/js/utils.js`:
`lon += 180; lon -= lon % 6; lon /= 6; return lon + 1`. -/
def utmZone (lon : ℚ) : ℚ :=
  ((lon + 180) - jsFmod (lon + 180) 6) / 6 + 1

/-- `UTM.hemi(lat)`. -/
def utmHemi (lat : ℚ) : String :=
  if lat < 0 then " +south" else ""

/-- `UTM.proj(lat, lon)`.  The zone is an integral number (it equals
`trunc((lon+180)/6) + 1`), which JavaScript string concatenation prints
without a decimal point, hence the integer `toString`. -/
def utmProj (lat lon : ℚ) : String :=
  "+proj=utm +zone=" ++ toString (jsTrunc (utmZone lon)) ++ utmHemi lat ++
    " +ellps=WGS84 +datum=WGS84 +units=m +no_defs"

/-! ## Track scanner (`_scanPoints`): distances, geographic bounds and
distance markers -/

/-- A raw marker object pushed by the scanner loop:
`{loc: markerpoint, pos: cd - nextSeg, seg: i}`. -/
structure RawMarker where
  loc : Pt3
  pos : ℚ
  seg : ℕ
deriving DecidableEq

/-- The accumulator state of the scanner loop of `_scanPoints`:
cumulative distances, geographic bounds, per-point cumulative distance
list and the marker objects collected so far. -/
structure ScanState where
  totaldist : ℚ
  cd : ℚ
  md : ℚ
  lastmd : ℚ
  minLon : ℚ
  maxLon : ℚ
  minLat : ℚ
  maxLat : ℚ
  rawpointcd : List ℚ
  markers : List RawMarker
deriving DecidableEq, Inhabited

/-- One iteration of the scanner loop of `_scanPoints` for the segment
from `prev` (`pts[i-1]`) to `cur` (`pts[i]`) whose Vincenty length is
`segdist`.  A marker is interpolated when the accumulated
marker-distance `md` reaches `markerInterval`; `md` is then reset to the
overshoot `nextSeg`.  Note the source tests `md >= markerInterval` once
per segment, so at most one marker is emitted per raw segment. -/
def scanStep (interval : ℚ) (prev cur : Pt3) (i : ℕ) (segdist : ℚ)
    (st : ScanState) : ScanState :=
  let minLon := if cur.lon < st.minLon then cur.lon else st.minLon
  let maxLon := if cur.lon > st.maxLon then cur.lon else st.maxLon
  let minLat := if cur.lat < st.minLat then cur.lat else st.minLat
  let maxLat := if cur.lat > st.maxLat then cur.lat else st.maxLat
  let totaldist := st.totaldist + segdist
  let lastmd := st.md
  let md := st.md + segdist
  let cd := st.cd + segdist
  let rawpointcd := st.rawpointcd ++ [cd]
  if 0 < interval ∧ interval ≤ md then
    let lastSeg := interval - lastmd
    let nextSeg := segdist - lastSeg
    let pd := lastSeg / segdist
    let markerpoint : Pt3 :=
      ⟨prev.lon + pd * (cur.lon - prev.lon),
       prev.lat + pd * (cur.lat - prev.lat),
       prev.ele + pd * (cur.ele - prev.ele)⟩
    { totaldist, cd, md := nextSeg, lastmd, minLon, maxLon, minLat, maxLat,
      rawpointcd,
      markers := st.markers ++ [⟨markerpoint, cd - nextSeg, i⟩] }
  else
    { totaldist, cd, md, lastmd, minLon, maxLon, minLat, maxLat,
      rawpointcd, markers := st.markers }

/-- The scanner loop over the remaining points, `i` being the index of
the current point `cur` in the original array and `prev` the previous
point (`lastpt`). -/
def scanAux (dist : Pt3 → Pt3 → ℚ) (interval : ℚ) (i : ℕ) (prev : Pt3)
    (pts : List Pt3) (st : ScanState) : ScanState :=
  match pts with
  | [] => st
  | cur :: rest =>
    scanAux dist interval (i + 1) cur rest
      (scanStep interval prev cur i (dist prev cur) st)

/-- The scanning phase of `_scanPoints` up to the end of its point loop.
`dist` abstracts the `distVincenty` call (the source passes
`(lat, lon)` pairs of the previous and current point).  `none` models
the crash on an empty input array (`pts[0]` is `undefined`). -/
def scanPoints (dist : Pt3 → Pt3 → ℚ) (interval : ℚ) (pts : List Pt3) :
    Option ScanState :=
  match pts with
  | [] => none
  | p0 :: rest =>
    some (scanAux dist interval 1 p0 rest
      { totaldist := 0, cd := 0, md := 0, lastmd := 0,
        minLon := p0.lon, maxLon := p0.lon,
        minLat := p0.lat, maxLat := p0.lat,
        rawpointcd := [], markers := [] })

/-- The projection-selection block of `_scanPoints` (lines 166–172):
when `projtype` is `PROJ_UTM` (2) the caller's `options.projection`
field is overwritten with the auto-derived UTM definition, when it is
`PROJ_GOOGLE` (0) it is overwritten with `"GOOGLE"`; only
`PROJ_CUSTOM` leaves the record untouched. -/
def optionsAfterScan (opts : Options) (st : ScanState) : Options :=
  if opts.projtype = 2 then
    let lat := (st.minLat + st.maxLat) / 2
    let lon := (st.minLon + st.maxLon) / 2
    { opts with projection := utmProj lat lon }
  else if opts.projtype = 0 then
    { opts with projection := "GOOGLE" }
  else opts

/-- The observable effect of `ModelGenerator.generate` on the caller's
options record (the context stores `options` by reference, so the
`ctx.options.projection` assignments in `_scanPoints` mutate the
caller's record). -/
def optionsAfterGenerate (dist : Pt3 → Pt3 → ℚ) (opts : Options)
    (pts : List Pt3) : Option Options :=
  (scanPoints dist opts.markerInterval pts).map (optionsAfterScan opts)

/-! ## Distance filter (`_distFilter`) -/

/-- The filter loop of `_distFilter` over the raw points after the
first, given the last kept point.  Returns the kept tail, the list of
kept-to-kept distances and their sum (`filteredPts` minus its seeded
head, `filteredDst`, `total`).  The source keeps `points[cur]` iff
`mindist === 0` or its distance to the last kept point is
`≥ mindist`. -/
def distFilterAux (dist : Pt3 → Pt3 → ℚ) (mindist : ℚ)
    (pts : List Pt3) (lastKept : Pt3) : List Pt3 × List ℚ × ℚ :=
  match pts with
  | [] => ([], [], 0)
  | cur :: rest =>
    let d := dist cur lastKept
    if mindist = 0 ∨ mindist ≤ d then
      let r := distFilterAux dist mindist rest cur
      (cur :: r.1, d :: r.2.1, d + r.2.2)
    else
      distFilterAux dist mindist rest lastKept

/-- `_distFilter(ctx, points, mindist)` for a nonempty point list
`p0 :: rest`: the first point is always kept (`filteredPts = [points[0]]`
before the loop).  Result: `(ctx.ll, ctx.d, ctx.smoothTotal)`. -/
def distFilter (dist : Pt3 → Pt3 → ℚ) (mindist : ℚ) (p0 : Pt3)
    (rest : List Pt3) : List Pt3 × List ℚ × ℚ :=
  let r := distFilterAux dist mindist rest p0
  (p0 :: r.1, r.2.1, r.2.2)

/-! ## Theorems about the scanner's markers (claim C1) -/

/-- Invariant of the scanner loop: marker distance `md` lags the
cumulative distance `cd` by exactly one `interval` per emitted marker,
stays inside `[0, interval)`, and the emitted marker positions are
exactly the successive multiples of `interval`. -/
def MarkerInv (interval : ℚ) (st : ScanState) : Prop :=
  st.totaldist = st.cd ∧
  st.md = st.cd - st.markers.length * interval ∧
  0 ≤ st.md ∧ st.md < interval ∧
  st.markers.map RawMarker.pos =
    (List.range st.markers.length).map (fun k => ((k : ℚ) + 1) * interval)

theorem scanStep_markerInv (interval : ℚ) (prev cur : Pt3) (i : ℕ)
    (d : ℚ) (st : ScanState) (hI : 0 < interval)
    (hd0 : 0 ≤ d) (hdI : d ≤ interval) (hinv : MarkerInv interval st) :
    MarkerInv interval (scanStep interval prev cur i d st) := by
  obtain ⟨ht, hmd, h0, h1, hpos⟩ := hinv
  unfold scanStep MarkerInv
  by_cases hg : 0 < interval ∧ interval ≤ st.md + d
  · simp only [if_pos hg]
    refine ⟨by rw [ht], ?_, by linarith [hg.2], by linarith, ?_⟩
    · simp only [List.length_append, List.length_singleton]
      push_cast
      rw [hmd]; ring
    · have hm : st.cd + d - (d - (interval - st.md)) =
          ((st.markers.length : ℚ) + 1) * interval := by
        rw [hmd]; ring
      simp only [List.map_append, List.length_append,
        List.length_singleton, List.range_succ, List.map_cons,
        List.map_nil, hpos]
      simp [hm]
  · simp only [if_neg hg]
    have hlt : st.md + d < interval := by
      by_contra hcon
      exact hg ⟨hI, le_of_not_lt hcon⟩
    exact ⟨by rw [ht], by rw [hmd]; ring, by linarith, hlt, hpos⟩

theorem scanAux_markerInv (dist : Pt3 → Pt3 → ℚ) (interval : ℚ)
    (hI : 0 < interval) (rest : List Pt3) (i : ℕ) (prev : Pt3)
    (st : ScanState) (hinv : MarkerInv interval st)
    (hchain : List.Chain (fun a b => 0 ≤ dist a b ∧ dist a b ≤ interval)
      prev rest) :
    MarkerInv interval (scanAux dist interval i prev rest st) := by
  induction rest generalizing i prev st with
  | nil => simpa [scanAux] using hinv
  | cons cur rest ih =>
    cases hchain with
    | cons hpair hchain =>
      simp only [scanAux]
      exact ih (i + 1) cur _
        (scanStep_markerInv interval prev cur i _ st hI hpair.1 hpair.2 hinv)
        hchain

/-- C1 (amended): if every raw segment is at most `markerInterval` long
and the total distance is exactly `N · markerInterval` (i.e. the
interval is `L/N`), the scan emits exactly `N` markers and the
cumulative-distance position stored with the k-th marker is exactly
`k · L/N` — exact rational arithmetic, so the spec's ε is 0 here.
The segment bound is forced by the loop's once-per-segment marker test
(see `scanPoints_marker_undercount`). -/
theorem scanPoints_markers_exact (dist : Pt3 → Pt3 → ℚ) (interval : ℚ)
    (p0 : Pt3) (rest : List Pt3) (N : ℕ) (st : ScanState)
    (hI : 0 < interval)
    (hchain : List.Chain (fun a b => 0 ≤ dist a b ∧ dist a b ≤ interval)
      p0 rest)
    (hscan : scanPoints dist interval (p0 :: rest) = some st)
    (htot : st.totaldist = N * interval) :
    st.markers.length = N ∧
    st.markers.map RawMarker.pos =
      (List.range N).map (fun k => ((k : ℚ) + 1) * interval) := by
  have hst : scanAux dist interval 1 p0 rest
      { totaldist := 0, cd := 0, md := 0, lastmd := 0,
        minLon := p0.lon, maxLon := p0.lon,
        minLat := p0.lat, maxLat := p0.lat,
        rawpointcd := [], markers := [] } = st := by
    simpa [scanPoints] using hscan
  have hinv0 : MarkerInv interval
      { totaldist := 0, cd := 0, md := 0, lastmd := 0,
        minLon := p0.lon, maxLon := p0.lon,
        minLat := p0.lat, maxLat := p0.lat,
        rawpointcd := [], markers := [] } := by
    refine ⟨rfl, by simp, le_refl 0, hI, by simp⟩
  have hinv := scanAux_markerInv dist interval hI rest 1 p0 _ hinv0 hchain
  rw [hst] at hinv
  obtain ⟨ht, hmd, h0, h1, hpos⟩ := hinv
  have hcd : st.cd = N * interval := by rw [← ht, htot]
  rw [hmd, hcd] at h0 h1
  have h2 : st.markers.length ≤ N := by
    have : (st.markers.length : ℚ) ≤ N := by nlinarith
    exact_mod_cast this
  have h3 : N < st.markers.length + 1 := by
    have : (N : ℚ) < st.markers.length + 1 := by nlinarith
    exact_mod_cast this
  have hlen : st.markers.length = N := by omega
  exact ⟨hlen, by rw [← hlen]; exact hpos⟩

/-- Witness for `scanPoints_markers_exact`: four points one interval
apart produce three markers at positions 1, 2, 3. -/
theorem scanPoints_markers_exact_app :
    ((scanPoints (fun _ _ => (1 : ℚ)) 1
        [⟨0, 0, 0⟩, ⟨1, 0, 0⟩, ⟨2, 0, 0⟩, ⟨3, 0, 0⟩]).getD
          default).markers.length = 3 ∧
    ((scanPoints (fun _ _ => (1 : ℚ)) 1
        [⟨0, 0, 0⟩, ⟨1, 0, 0⟩, ⟨2, 0, 0⟩, ⟨3, 0, 0⟩]).getD
          default).markers.map RawMarker.pos =
      (List.range 3).map (fun k => ((k : ℚ) + 1) * 1) :=
  scanPoints_markers_exact (fun _ _ => 1) 1 ⟨0, 0, 0⟩
    [⟨1, 0, 0⟩, ⟨2, 0, 0⟩, ⟨3, 0, 0⟩] 3 _
    (by norm_num) (by norm_num [List.chain_cons])
    (by norm_num [scanPoints])
    (by norm_num [scanPoints, scanAux, scanStep])

/-- C1 (counterexample to the claim as stated): a single raw segment of
length 2 with `markerInterval = L/N = 2/2 = 1` yields only one marker,
not two — the loop tests `md >= markerInterval` once per segment, so a
segment spanning several intervals still emits a single marker. -/
theorem scanPoints_marker_undercount :
    (scanPoints (fun _ _ => (2 : ℚ)) 1 [⟨0, 0, 0⟩, ⟨1, 0, 0⟩]).map
      (fun st => (st.totaldist, st.markers.length)) = some (2, 1) := by
  norm_num [scanPoints, scanAux, scanStep]

/-! ## Theorems about option mutation by `generate` (claim C2) -/

/-- An options record selecting the web-mercator projection mode
(`projtype = 0`) with a caller-supplied projection string. -/
def optsProjGoogle : Options :=
  { buffer := 1, vertical := 1, bedx := 100, bedy := 100, base := 1,
    zcut := false, zoverride := false, zconstant := 100, regionfit := false,
    region_minx := 0, region_maxx := 0, region_miny := 0, region_maxy := 0,
    shapetype := 1, projtype := 0, projection := "+proj=merc +custom",
    markerInterval := 0, smoothtype := 1, smoothspan := 10 }

/-- C2 (counterexample): `generate` does mutate its options record.
With `projtype = 0` the scanner overwrites the caller's
`options.projection` with `"GOOGLE"`, so the field does not survive the
call unchanged. -/
theorem generate_mutates_projection :
    (optionsAfterGenerate (fun _ _ => 1) optsProjGoogle
        [⟨0, 0, 0⟩, ⟨1, 1, 0⟩]).map Options.projection = some "GOOGLE" ∧
    optsProjGoogle.projection ≠ "GOOGLE" := by
  constructor
  · norm_num [optionsAfterGenerate, scanPoints, optionsAfterScan,
      optsProjGoogle]
  · decide

theorem optionsAfterScan_fields (opts : Options) (st : ScanState) :
    ((optionsAfterScan opts st).buffer = opts.buffer ∧
     (optionsAfterScan opts st).vertical = opts.vertical ∧
     (optionsAfterScan opts st).bedx = opts.bedx ∧
     (optionsAfterScan opts st).bedy = opts.bedy ∧
     (optionsAfterScan opts st).base = opts.base ∧
     (optionsAfterScan opts st).zcut = opts.zcut ∧
     (optionsAfterScan opts st).zoverride = opts.zoverride ∧
     (optionsAfterScan opts st).zconstant = opts.zconstant ∧
     (optionsAfterScan opts st).regionfit = opts.regionfit ∧
     (optionsAfterScan opts st).region_minx = opts.region_minx ∧
     (optionsAfterScan opts st).region_maxx = opts.region_maxx ∧
     (optionsAfterScan opts st).region_miny = opts.region_miny ∧
     (optionsAfterScan opts st).region_maxy = opts.region_maxy ∧
     (optionsAfterScan opts st).shapetype = opts.shapetype ∧
     (optionsAfterScan opts st).projtype = opts.projtype ∧
     (optionsAfterScan opts st).markerInterval = opts.markerInterval ∧
     (optionsAfterScan opts st).smoothtype = opts.smoothtype ∧
     (optionsAfterScan opts st).smoothspan = opts.smoothspan) ∧
    (opts.projtype ≠ 0 → opts.projtype ≠ 2 → optionsAfterScan opts st = opts) := by
  unfold optionsAfterScan
  split_ifs with h1 h2 <;> simp_all

/-- C2 (amended): `generate` leaves the points array untouched and
every options field except `projection` unchanged; `projection` itself
is unchanged exactly when `projtype` is neither 0 (web mercator) nor 2
(auto UTM) — in those two modes the scanner overwrites it (see
`generate_mutates_projection`). -/
theorem generate_options_mutation_only_projection
    (dist : Pt3 → Pt3 → ℚ) (opts : Options) (pts : List Pt3) (o : Options)
    (h : optionsAfterGenerate dist opts pts = some o) :
    (o.buffer = opts.buffer ∧ o.vertical = opts.vertical ∧
     o.bedx = opts.bedx ∧ o.bedy = opts.bedy ∧ o.base = opts.base ∧
     o.zcut = opts.zcut ∧ o.zoverride = opts.zoverride ∧
     o.zconstant = opts.zconstant ∧ o.regionfit = opts.regionfit ∧
     o.region_minx = opts.region_minx ∧ o.region_maxx = opts.region_maxx ∧
     o.region_miny = opts.region_miny ∧ o.region_maxy = opts.region_maxy ∧
     o.shapetype = opts.shapetype ∧ o.projtype = opts.projtype ∧
     o.markerInterval = opts.markerInterval ∧
     o.smoothtype = opts.smoothtype ∧ o.smoothspan = opts.smoothspan) ∧
    (opts.projtype ≠ 0 → opts.projtype ≠ 2 → o = opts) := by
  cases pts with
  | nil => simp [optionsAfterGenerate, scanPoints] at h
  | cons p0 rest =>
    simp only [optionsAfterGenerate, scanPoints, Option.map] at h
    cases h
    exact optionsAfterScan_fields opts _

/-- An options record selecting the custom projection mode
(`projtype = 1`). -/
def optsProjCustom : Options :=
  { buffer := 1, vertical := 1, bedx := 100, bedy := 100, base := 1,
    zcut := false, zoverride := false, zconstant := 100, regionfit := false,
    region_minx := 0, region_maxx := 0, region_miny := 0, region_maxy := 0,
    shapetype := 1, projtype := 1, projection := "+proj=utm +zone=33",
    markerInterval := 0, smoothtype := 1, smoothspan := 10 }

/-- Witness for `generate_options_mutation_only_projection` at a
custom-projection options record: the record survives unchanged. -/
theorem generate_options_mutation_only_projection_app :
    (optionsAfterGenerate (fun _ _ => (1 : ℚ)) optsProjCustom
        [⟨0, 0, 0⟩, ⟨1, 1, 0⟩]).getD optsProjCustom = optsProjCustom :=
  (generate_options_mutation_only_projection (fun _ _ => 1) optsProjCustom
      [⟨0, 0, 0⟩, ⟨1, 1, 0⟩]
      ((optionsAfterGenerate (fun _ _ => (1 : ℚ)) optsProjCustom
        [⟨0, 0, 0⟩, ⟨1, 1, 0⟩]).getD optsProjCustom)
      (by norm_num [optionsAfterGenerate, scanPoints])).2
    (by decide) (by decide)

/-! ## Theorems about the distance filter (claim C4) -/

theorem distFilterAux_keepAll (dist : Pt3 → Pt3 → ℚ) (rest : List Pt3) :
    ∀ lastKept, (distFilterAux dist 0 rest lastKept).1 = rest := by
  induction rest with
  | nil => intro l; rfl
  | cons cur rest ih =>
    intro l
    simp [distFilterAux, ih]

theorem distFilterAux_chain (dist : Pt3 → Pt3 → ℚ) (m : ℚ) (hm : m ≠ 0)
    (rest : List Pt3) : ∀ lastKept,
    List.Chain (fun a b => m ≤ dist b a) lastKept
      (distFilterAux dist m rest lastKept).1 := by
  induction rest with
  | nil => intro l; exact List.Chain.nil
  | cons cur rest ih =>
    intro l
    by_cases hd : m ≤ dist cur l
    · have hcond : m = 0 ∨ m ≤ dist cur l := Or.inr hd
      simp only [distFilterAux, if_pos hcond]
      exact List.Chain.cons hd (ih cur)
    · have hcond : ¬(m = 0 ∨ m ≤ dist cur l) := by
        rintro (h | h)
        · exact hm h
        · exact hd h
      simp only [distFilterAux, if_neg hcond]
      exact ih l

/-- C4: the distance filter keeps the first raw point; with
`mindist = 0` it keeps every point unconditionally; with
`mindist ≠ 0` every adjacent pair of kept points is at least `mindist`
apart under the distance function the filter consulted (the source
keeps a point exactly when its distance to the last kept point is
`≥ mindist`, so the kept sequence is chained by that bound). -/
theorem distFilter_spec (dist : Pt3 → Pt3 → ℚ) (m : ℚ) (p0 : Pt3)
    (rest : List Pt3) :
    (distFilter dist m p0 rest).1.head? = some p0 ∧
    (m = 0 → (distFilter dist m p0 rest).1 = p0 :: rest) ∧
    (m ≠ 0 → List.Chain' (fun a b => m ≤ dist b a)
        (distFilter dist m p0 rest).1) := by
  refine ⟨rfl, ?_, ?_⟩
  · intro h
    subst h
    simp [distFilter, distFilterAux_keepAll]
  · intro hm
    exact distFilterAux_chain dist m hm rest p0

/-- Witness for `distFilter_spec` with a strictly positive threshold. -/
theorem distFilter_spec_app :
    (distFilter (fun _ _ => (3 : ℚ)) 2 ⟨0, 0, 0⟩ [⟨1, 0, 0⟩]).1.head? =
      some ⟨0, 0, 0⟩ ∧
    List.Chain' (fun a b => (2 : ℚ) ≤ (fun (_ _ : Pt3) => (3 : ℚ)) b a)
      (distFilter (fun _ _ => (3 : ℚ)) 2 ⟨0, 0, 0⟩ [⟨1, 0, 0⟩]).1 :=
  ⟨(distFilter_spec (fun _ _ => 3) 2 ⟨0, 0, 0⟩ [⟨1, 0, 0⟩]).1,
   (distFilter_spec (fun _ _ => 3) 2 ⟨0, 0, 0⟩ [⟨1, 0, 0⟩]).2.2 (by norm_num)⟩

/-! ## Path builder (`_processPath` and `PathSegment`) -/

/-- A fitted planar station `[x, y, z]` of `ctx.outputPoints`. -/
structure OutPt where
  x : ℚ
  y : ℚ
  z : ℚ
deriving DecidableEq, Inhabited

/-- `vectorAngle(a, b)` of `src/js/utils.js`:
`Math.atan2(b[1] - a[1], b[0] - a[0])`. -/
def vectorAngle (ops : FloatOps) (a b : OutPt) : ℚ :=
  ops.atan2 (b.y - a.y) (b.x - a.x)

/-- `Math.sign`. -/
def jsSign (q : ℚ) : ℚ :=
  if 0 < q then 1 else if q < 0 then -1 else 0

/-- `isAcute(angle)` of `_processPath`:
`|angle| > π/2 && |angle| < 3π/2`. -/
def isAcute (ops : FloatOps) (angle : ℚ) : Bool :=
  decide (|angle| > ops.pi / 2) && decide (|angle| < 3 * ops.pi / 2)

/-- `segmentAngle(i)` of `_processPath`: the direction of segment
`i → i+1`; at the final index it returns `segmentAngle(i - 1)` (a
single recursion step when the array has ≥ 2 points).  On a one-point
array that recursion reads `outputPoints[-1]`, which is `undefined`,
and `vectorAngle` then throws a `TypeError` — modelled by `none`. -/
def segmentAngle (ops : FloatOps) (pts : List OutPt) (i : ℕ) : Option ℚ :=
  if i + 1 = pts.length then
    if h : 2 ≤ pts.length then
      some (vectorAngle ops (pts.get ⟨pts.length - 2, by omega⟩)
        (pts.get ⟨pts.length - 1, by omega⟩))
    else none
  else
    match pts[i]?, pts[i + 1]? with
    | some a, some b => some (vectorAngle ops a b)
    | _, _ => none

/-- `jointPoints(i, rel, avga)`: the left and right mitred offsets of
station `p`.  `jointr = buffer / cos(rel/2)`, clamped to magnitude
`2·buffer` keeping its sign. -/
def jointPoints (ops : FloatOps) (buffer : ℚ) (p : OutPt)
    (rel avga : ℚ) : (ℚ × ℚ) × (ℚ × ℚ) :=
  let jointr0 := buffer / ops.cos (rel / 2)
  let jointr :=
    if |jointr0| > buffer * 2 then jsSign jointr0 * (buffer * 2) else jointr0
  let lx := p.x + jointr * ops.cos (avga + ops.pi / 2)
  let ly := p.y + jointr * ops.sin (avga + ops.pi / 2)
  let rx := p.x + jointr * ops.cos (avga - ops.pi / 2)
  let ry := p.y + jointr * ops.sin (avga - ops.pi / 2)
  ((lx, ly), (rx, ry))

/-- `PathSegment.points(a, v, z)`: append the four cross-section
vertices (lower-left, lower-right, upper-left, upper-right). -/
def pathSegmentPoints (a : List (ℚ × ℚ × ℚ)) (v : (ℚ × ℚ) × (ℚ × ℚ))
    (z : ℚ) : List (ℚ × ℚ × ℚ) :=
  a ++ [(v.1.1, v.1.2, 0), (v.2.1, v.2.2, 0),
        (v.1.1, v.1.2, z), (v.2.1, v.2.2, z)]

/-- `PathSegment.firstFace(a)`: the start cap. -/
def pathSegmentFirstFace (a : List (ℤ × ℤ × ℤ)) : List (ℤ × ℤ × ℤ) :=
  a ++ [(0, 2, 3), (3, 1, 0)]

/-- `PathSegment.lastFace(a, s)`: the end cap, indices relative to
`i = (s - 1) * 4`.  Indices are integers: for `s = 0` the source
produces negative indices. -/
def pathSegmentLastFace (a : List (ℤ × ℤ × ℤ)) (s : ℤ) :
    List (ℤ × ℤ × ℤ) :=
  let i := (s - 1) * 4
  a ++ [(i + 2, i + 1, i + 3), (i + 2, i + 0, i + 1)]

/-- `PathSegment.faces(a, s)`: start cap at `s = 0`, otherwise the
eight bridge triangles (top, left, right, bottom) from quad `s-1` to
quad `s`, with `i = (s - 1) * 4`. -/
def pathSegmentFaces (a : List (ℤ × ℤ × ℤ)) (s : ℕ) :
    List (ℤ × ℤ × ℤ) :=
  if s = 0 then pathSegmentFirstFace a
  else
    let i : ℤ := ((s : ℤ) - 1) * 4
    a ++ [(i + 2, i + 6, i + 3), (i + 3, i + 6, i + 7),
          (i + 3, i + 7, i + 5), (i + 3, i + 5, i + 1),
          (i + 6, i + 2, i + 0), (i + 6, i + 0, i + 4),
          (i + 0, i + 5, i + 4), (i + 0, i + 1, i + 5)]

/-- The accumulator state of `_processPath`: the accepted-station
counter `s` and the vertex and face arrays.  (The loop-local
`lastAngle` variable is threaded as a separate argument of
`processPathAux`.) -/
structure PathState where
  s : ℕ
  vertices : List (ℚ × ℚ × ℚ)
  faces : List (ℤ × ℤ × ℤ)
deriving DecidableEq, Inhabited

/-- The skip test of `_processPath`, evaluated with JavaScript
short-circuiting: `isAcute(relAngle) && i < n-1 &&
isAcute(segmentAngle(i+1) - angle)`; `none` if the inner
`segmentAngle` call crashes (it cannot for `i < n-1`). -/
def skipTestFn (ops : FloatOps) (pts : List OutPt) (i : ℕ)
    (angle relAngle : ℚ) : Option Bool :=
  if isAcute ops relAngle && decide (i < pts.length - 1) then
    match segmentAngle ops pts (i + 1) with
    | none => none
    | some nextAngle => some (isAcute ops (nextAngle - angle))
  else some false

/-- The station loop of `_processPath` from index `i`, with `fuel`
iterations left (`fuel = pts.length - i` at every call) and the current
value of the `lastAngle` loop variable.  A station is skipped
(`continue`) when its relative angle is acute, it is not the last
station, and the next relative angle is acute as well; a skip keeps
`s` and the accumulators, and `lastAngle` is only modified by the
`i === 0` initialisation.  The source's loop locals are written
inline: `lastAngle = (i == 0 ? angle : lastAngle)`,
`relAngle = angle - lastAngle`, `jointAngle = relAngle/2 + lastAngle`. -/
def processPathAux (ops : FloatOps) (buffer : ℚ) (pts : List OutPt)
    (i : ℕ) (fuel : ℕ) (lastAngle : ℚ) (st : PathState) :
    Option PathState :=
  match fuel with
  | 0 => some st
  | fuel + 1 =>
    match segmentAngle ops pts i with
    | none => none
    | some angle =>
      match skipTestFn ops pts i angle
          (angle - (if i = 0 then angle else lastAngle)) with
      | none => none
      | some true =>
        processPathAux ops buffer pts (i + 1) fuel
          (if i = 0 then angle else lastAngle) st
      | some false =>
        match pts[i]? with
        | none => none
        | some p =>
          processPathAux ops buffer pts (i + 1) fuel angle
            ⟨st.s + 1,
             pathSegmentPoints st.vertices
               (jointPoints ops buffer p
                 (angle - (if i = 0 then angle else lastAngle))
                 ((angle - (if i = 0 then angle else lastAngle)) / 2 +
                   (if i = 0 then angle else lastAngle)))
               p.z,
             pathSegmentFaces st.faces st.s⟩

/-- `_processPath(ctx)` up to the geometry accumulators: run the
station loop over all fitted points (the `lastAngle` variable starts
uninitialised; `0` stands in for `undefined`, and the source assigns it
at `i === 0` before any use), then append the end cap with
`s = vertices.length / 4`. -/
def processPath (ops : FloatOps) (buffer : ℚ) (pts : List OutPt) :
    Option PathState :=
  (processPathAux ops buffer pts 0 pts.length 0 ⟨0, [], []⟩).map
    (fun st =>
      { st with faces :=
          pathSegmentLastFace st.faces ((st.vertices.length / 4 : ℕ) : ℤ) })

/-- The relative angle `0` is never acute, whatever the value of π. -/
theorem isAcute_zero (ops : FloatOps) : isAcute ops 0 = false := by
  unfold isAcute
  rcases lt_or_le (ops.pi / 2) 0 with h | h
  · have h2 : ¬ (|(0 : ℚ)| < 3 * ops.pi / 2) := by
      rw [abs_zero]
      intro hc
      linarith
    rw [decide_eq_false h2, Bool.and_false]
  · have h1 : ¬ (|(0 : ℚ)| > ops.pi / 2) := by
      rw [abs_zero]
      exact not_lt.mpr h
    rw [decide_eq_false h1, Bool.false_and]

/-! ## Path builder invariants (claims C5, C6, C10) -/

/-- All three indices of a triangle are in range of an `n`-element
vertex array. -/
def faceOk (n : ℤ) (f : ℤ × ℤ × ℤ) : Prop :=
  0 ≤ f.1 ∧ f.1 < n ∧ 0 ≤ f.2.1 ∧ f.2.1 < n ∧ 0 ≤ f.2.2 ∧ f.2.2 < n

instance faceOkDecidable (n : ℤ) (f : ℤ × ℤ × ℤ) : Decidable (faceOk n f) := by
  unfold faceOk
  infer_instance

theorem faceOk_mono {n m : ℤ} (h : n ≤ m) {f : ℤ × ℤ × ℤ}
    (hf : faceOk n f) : faceOk m f := by
  obtain ⟨a, b, c, d, e, g⟩ := hf
  exact ⟨a, by omega, c, by omega, e, by omega⟩

/-- Loop invariant of the station loop: four vertices per accepted
station, two faces for the first accepted station and eight per later
one, and every face index in range of the vertices pushed so far. -/
def PathInv (st : PathState) : Prop :=
  st.vertices.length = 4 * st.s ∧
  st.faces.length = (if st.s = 0 then 0 else 8 * st.s - 6) ∧
  ∀ f ∈ st.faces, faceOk (4 * st.s) f

theorem pathSegmentPoints_length (a : List (ℚ × ℚ × ℚ))
    (v : (ℚ × ℚ) × (ℚ × ℚ)) (z : ℚ) :
    (pathSegmentPoints a v z).length = a.length + 4 := by
  simp [pathSegmentPoints]

theorem pathSegmentFaces_length (a : List (ℤ × ℤ × ℤ)) (s : ℕ) :
    (pathSegmentFaces a s).length = a.length + (if s = 0 then 2 else 8) := by
  unfold pathSegmentFaces pathSegmentFirstFace
  split_ifs with h <;> simp

theorem pathInv_accept (st : PathState) (hinv : PathInv st)
    (pathPts : (ℚ × ℚ) × (ℚ × ℚ)) (z : ℚ) :
    PathInv ⟨st.s + 1,
      pathSegmentPoints st.vertices pathPts z,
      pathSegmentFaces st.faces st.s⟩ := by
  obtain ⟨hv, hf, hok⟩ := hinv
  refine ⟨?_, ?_, ?_⟩
  · dsimp only
    rw [pathSegmentPoints_length, hv]
    ring
  · dsimp only
    rw [pathSegmentFaces_length, hf, if_neg (Nat.succ_ne_zero st.s)]
    by_cases hs : st.s = 0
    · rw [if_pos hs, if_pos hs, hs]
    · rw [if_neg hs, if_neg hs]
      omega
  · dsimp only
    intro f hfm
    by_cases hs : st.s = 0
    · simp only [pathSegmentFaces, if_pos hs, pathSegmentFirstFace,
        List.mem_append] at hfm
      rcases hfm with hfm | hfm
      · exact faceOk_mono (by push_cast; omega) (hok f hfm)
      · simp only [List.mem_cons, List.not_mem_nil, or_false] at hfm
        rcases hfm with rfl | rfl <;>
          exact ⟨by norm_num, by push_cast; omega, by norm_num,
            by push_cast; omega, by norm_num, by push_cast; omega⟩
    · have hs1 : 1 ≤ st.s := by omega
      simp only [pathSegmentFaces, if_neg hs, List.mem_append] at hfm
      rcases hfm with hfm | hfm
      · exact faceOk_mono (by push_cast; omega) (hok f hfm)
      · simp only [List.mem_cons, List.not_mem_nil, or_false] at hfm
        rcases hfm with rfl | rfl | rfl | rfl | rfl | rfl | rfl | rfl <;>
          exact ⟨by push_cast; omega, by push_cast; omega,
            by push_cast; omega, by push_cast; omega,
            by push_cast; omega, by push_cast; omega⟩

theorem processPathAux_inv (ops : FloatOps) (buffer : ℚ)
    (pts : List OutPt) (fuel : ℕ) :
    ∀ (i : ℕ) (la : ℚ) (st res : PathState),
      processPathAux ops buffer pts i fuel la st = some res →
      PathInv st → PathInv res := by
  induction fuel with
  | zero =>
    intro i la st res h hinv
    simp only [processPathAux] at h
    cases h
    exact hinv
  | succ fuel ih =>
    intro i la st res h hinv
    unfold processPathAux at h
    repeat' split at h
    try any_goals exact Option.noConfusion h
    all_goals first
      | exact ih _ _ _ _ h hinv
      | exact ih _ _ _ _ h (pathInv_accept st hinv _ _)

theorem pathSegmentFaces_eq_append (a : List (ℤ × ℤ × ℤ)) (s : ℕ) :
    ∃ l, pathSegmentFaces a s = a ++ l := by
  unfold pathSegmentFaces pathSegmentFirstFace
  split_ifs with h
  · exact ⟨_, rfl⟩
  · exact ⟨_, rfl⟩

/-- The station loop only appends to the face accumulator and never
shrinks the vertex accumulator. -/
theorem processPathAux_grows (ops : FloatOps) (buffer : ℚ)
    (pts : List OutPt) (fuel : ℕ) :
    ∀ (i : ℕ) (la : ℚ) (st res : PathState),
      processPathAux ops buffer pts i fuel la st = some res →
      (∃ tf, res.faces = st.faces ++ tf) ∧
        st.vertices.length ≤ res.vertices.length := by
  induction fuel with
  | zero =>
    intro i la st res h
    simp only [processPathAux] at h
    cases h
    exact ⟨⟨[], by simp⟩, le_refl _⟩
  | succ fuel ih =>
    intro i la st res h
    unfold processPathAux at h
    repeat' split at h
    try any_goals exact Option.noConfusion h
    try any_goals exact ih _ _ _ _ h
    all_goals obtain ⟨⟨tf, hf⟩, hlen⟩ := ih _ _ _ _ h
    all_goals obtain ⟨lf, hlf⟩ := pathSegmentFaces_eq_append st.faces st.s
    all_goals refine ⟨⟨lf ++ tf, ?_⟩, ?_⟩
    all_goals try (rw [hf]; show pathSegmentFaces st.faces st.s ++ tf = st.faces ++ (lf ++ tf); rw [hlf, List.append_assoc])
    all_goals (refine le_trans ?_ hlen; show st.vertices.length ≤ (pathSegmentPoints st.vertices _ _).length; rw [pathSegmentPoints_length]; omega)

theorem segmentAngle_isSome (ops : FloatOps) (pts : List OutPt) (i : ℕ)
    (hi : i < pts.length) (h2 : 2 ≤ pts.length) :
    ∃ a, segmentAngle ops pts i = some a := by
  unfold segmentAngle
  by_cases he : i + 1 = pts.length
  · rw [if_pos he, dif_pos h2]
    exact ⟨_, rfl⟩
  · rw [if_neg he]
    have hi1 : i + 1 < pts.length := by omega
    rw [List.getElem?_eq_getElem hi, List.getElem?_eq_getElem hi1]
    exact ⟨_, rfl⟩

theorem skipTestFn_isSome (ops : FloatOps) (pts : List OutPt) (i : ℕ)
    (angle relAngle : ℚ) (h2 : 2 ≤ pts.length) :
    ∃ b, skipTestFn ops pts i angle relAngle = some b := by
  unfold skipTestFn
  by_cases hc : (isAcute ops relAngle && decide (i < pts.length - 1)) = true
  · rw [if_pos hc]
    have hi1 : i + 1 < pts.length := by
      by_cases hd : i < pts.length - 1
      · omega
      · rw [decide_eq_false hd, Bool.and_false] at hc
        exact Bool.noConfusion hc
    obtain ⟨a2, hA2⟩ := segmentAngle_isSome ops pts (i + 1) hi1 h2
    rw [hA2]
    exact ⟨_, rfl⟩
  · rw [if_neg hc]
    exact ⟨false, rfl⟩

/-- For at least two fitted points the station loop always terminates
successfully (every `segmentAngle` it consults is defined). -/
theorem processPathAux_total (ops : FloatOps) (buffer : ℚ)
    (pts : List OutPt) (h2 : 2 ≤ pts.length) (fuel : ℕ) :
    ∀ (i : ℕ) (la : ℚ) (st : PathState), i + fuel ≤ pts.length →
      ∃ res, processPathAux ops buffer pts i fuel la st = some res := by
  induction fuel with
  | zero =>
    intro i la st _
    exact ⟨st, rfl⟩
  | succ fuel ih =>
    intro i la st hle
    have hi : i < pts.length := by omega
    obtain ⟨a, hA⟩ := segmentAngle_isSome ops pts i hi h2
    obtain ⟨b, hB⟩ :=
      skipTestFn_isSome ops pts i a (a - (if i = 0 then a else la)) h2
    unfold processPathAux
    simp only [hA]
    simp only [hB]
    cases b with
    | true => exact ih (i + 1) _ st (by omega)
    | false =>
      simp only [List.getElem?_eq_getElem hi]
      exact ih (i + 1) _ _ (by omega)

theorem pathSegmentLastFace_length (a : List (ℤ × ℤ × ℤ)) (s : ℤ) :
    (pathSegmentLastFace a s).length = a.length + 2 := by
  simp [pathSegmentLastFace]

/-- C5: from a fitted sequence with `S ≥ 2` accepted stations, the path
builder emits exactly `4·S` vertices and `2 + 2 + 8·(S − 1)` triangles
(start cap, end cap, eight per quad-to-quad bridge). -/
theorem processPath_vertex_triangle_counts (ops : FloatOps) (buffer : ℚ)
    (pts : List OutPt) (res : PathState)
    (h : processPath ops buffer pts = some res) (h2 : 2 ≤ res.s) :
    res.vertices.length = 4 * res.s ∧
    res.faces.length = 2 + 2 + 8 * (res.s - 1) := by
  unfold processPath at h
  cases hA : processPathAux ops buffer pts 0 pts.length 0 ⟨0, [], []⟩ with
  | none =>
    rw [hA] at h
    exact Option.noConfusion h
  | some st0 =>
    rw [hA] at h
    simp only [Option.map_some'] at h
    cases h
    obtain ⟨hv, hf, hok⟩ :=
      processPathAux_inv ops buffer pts pts.length 0 0 _ st0 hA
        ⟨rfl, rfl, by simp⟩
    have h2s : 2 ≤ st0.s := h2
    constructor
    · show st0.vertices.length = 4 * st0.s
      exact hv
    · show (pathSegmentLastFace st0.faces
        ((st0.vertices.length / 4 : ℕ) : ℤ)).length = 2 + 2 + 8 * (st0.s - 1)
      rw [pathSegmentLastFace_length, hf, if_neg (by omega : ¬ st0.s = 0)]
      omega

/-- Witness for `processPath_vertex_triangle_counts` on a concrete
two-station straight track: 8 vertices and 12 triangles. -/
theorem processPath_vertex_triangle_counts_app :
    ((processPath zeroOps 1 [⟨0, 0, 5⟩, ⟨3, 0, 5⟩]).getD default).vertices.length =
      4 * ((processPath zeroOps 1 [⟨0, 0, 5⟩, ⟨3, 0, 5⟩]).getD default).s ∧
    ((processPath zeroOps 1 [⟨0, 0, 5⟩, ⟨3, 0, 5⟩]).getD default).faces.length =
      2 + 2 + 8 * (((processPath zeroOps 1 [⟨0, 0, 5⟩, ⟨3, 0, 5⟩]).getD default).s - 1) :=
  processPath_vertex_triangle_counts zeroOps 1 [⟨0, 0, 5⟩, ⟨3, 0, 5⟩] _
    (by norm_num [processPath, processPathAux, segmentAngle, skipTestFn,
      isAcute, vectorAngle, jointPoints, jsSign, pathSegmentPoints,
      pathSegmentFaces, pathSegmentFirstFace, pathSegmentLastFace, zeroOps])
    (by norm_num [processPath, processPathAux, segmentAngle, skipTestFn,
      isAcute, vectorAngle, jointPoints, jsSign, pathSegmentPoints,
      pathSegmentFaces, pathSegmentFirstFace, pathSegmentLastFace, zeroOps])

/-- C6: every triangle the path builder emits (caps and bridges alike)
indexes only existing vertices: all indices lie in
`[0, vertices.length)`, provided at least one station was accepted. -/
theorem processPath_faces_in_range (ops : FloatOps) (buffer : ℚ)
    (pts : List OutPt) (res : PathState)
    (h : processPath ops buffer pts = some res) (h1 : 1 ≤ res.s) :
    ∀ f ∈ res.faces, faceOk (res.vertices.length : ℤ) f := by
  unfold processPath at h
  cases hA : processPathAux ops buffer pts 0 pts.length 0 ⟨0, [], []⟩ with
  | none =>
    rw [hA] at h
    exact Option.noConfusion h
  | some st0 =>
    rw [hA] at h
    simp only [Option.map_some'] at h
    cases h
    obtain ⟨hv, hf, hok⟩ :=
      processPathAux_inv ops buffer pts pts.length 0 0 _ st0 hA
        ⟨rfl, rfl, by simp⟩
    have h1s : 1 ≤ st0.s := h1
    have hlen : ((st0.vertices.length : ℕ) : ℤ) = 4 * (st0.s : ℤ) := by
      rw [hv]
      push_cast
      ring
    have hdiv : st0.vertices.length / 4 = st0.s := by
      rw [hv]
      omega
    intro f hfm
    show faceOk ((st0.vertices.length : ℕ) : ℤ) f
    rw [hlen]
    have hfm2 : f ∈ pathSegmentLastFace st0.faces ((st0.vertices.length / 4 : ℕ) : ℤ) := hfm
    rw [hdiv] at hfm2
    simp only [pathSegmentLastFace, List.mem_append] at hfm2
    rcases hfm2 with hfm2 | hfm2
    · exact hok f hfm2
    · simp only [List.mem_cons, List.not_mem_nil, or_false] at hfm2
      rcases hfm2 with rfl | rfl <;>
        exact ⟨by push_cast; omega, by push_cast; omega,
          by push_cast; omega, by push_cast; omega,
          by push_cast; omega, by push_cast; omega⟩

/-- Witness for `processPath_faces_in_range` on the same concrete
two-station track. -/
theorem processPath_faces_in_range_app :
    ((processPath zeroOps 1 [⟨0, 0, 5⟩, ⟨3, 0, 5⟩]).getD default).faces.all
      (fun f => decide (faceOk
        ((((processPath zeroOps 1 [⟨0, 0, 5⟩, ⟨3, 0, 5⟩]).getD
          default).vertices.length : ℕ) : ℤ) f)) = true := by
  rw [List.all_eq_true]
  intro f hf
  rw [decide_eq_true_eq]
  exact processPath_faces_in_range zeroOps 1 [⟨0, 0, 5⟩, ⟨3, 0, 5⟩] _
    (by norm_num [processPath, processPathAux, segmentAngle, skipTestFn,
      isAcute, vectorAngle, jointPoints, jsSign, pathSegmentPoints,
      pathSegmentFaces, pathSegmentFirstFace, pathSegmentLastFace, zeroOps])
    (by norm_num [processPath, processPathAux, segmentAngle, skipTestFn,
      isAcute, vectorAngle, jointPoints, jsSign, pathSegmentPoints,
      pathSegmentFaces, pathSegmentFirstFace, pathSegmentLastFace, zeroOps])
    f hf

/-- One accepted iteration of the station loop, as an equation: when
the skip test is `some false`, the loop pushes the station's four
vertices and its faces and recurses with `lastAngle = angle`. -/
theorem processPathAux_step_accept (ops : FloatOps) (buffer : ℚ)
    (pts : List OutPt) (i fuel : ℕ) (la : ℚ) (st : PathState)
    (a : ℚ) (hA : segmentAngle ops pts i = some a)
    (p : OutPt) (hp : pts[i]? = some p)
    (hskip : skipTestFn ops pts i a (a - (if i = 0 then a else la)) =
      some false) :
    processPathAux ops buffer pts i (fuel + 1) la st =
      processPathAux ops buffer pts (i + 1) fuel a
        ⟨st.s + 1,
         pathSegmentPoints st.vertices
           (jointPoints ops buffer p
             (a - (if i = 0 then a else la))
             ((a - (if i = 0 then a else la)) / 2 + (if i = 0 then a else la)))
           p.z,
         pathSegmentFaces st.faces st.s⟩ := by
  conv_lhs => rw [processPathAux]
  simp only [hA, hskip, hp]

/-- C10 (counterexample to "every non-empty fitted sequence"): on a
single fitted point the source crashes before accepting any station —
`segmentAngle(0)` recurses to index −1 and reads `undefined` — so no
vertices and no start cap are emitted. -/
theorem processPath_single_point_crash :
    processPath zeroOps 1 [⟨0, 0, 5⟩] = none := by
  rfl

/-- C10 (amended): for every fitted sequence of at least two points the
builder succeeds and the first station is always accepted — its
relative angle is `0`, never acute — contributing the first four
vertices and the start-cap triangles `[0,2,3]` and `[3,1,0]` at the
head of the face list. -/
theorem processPath_first_station_accepted (ops : FloatOps) (buffer : ℚ)
    (pts : List OutPt) (h2 : 2 ≤ pts.length) :
    ∃ res, processPath ops buffer pts = some res ∧
      4 ≤ res.vertices.length ∧
      res.faces.take 2 = [(0, 2, 3), (3, 1, 0)] := by
  obtain ⟨a, hA⟩ := segmentAngle_isSome ops pts 0 (by omega) h2
  have hskip : skipTestFn ops pts 0 a (a - (if 0 = 0 then a else 0)) =
      some false := by
    have hrel : (a - (if 0 = 0 then a else (0 : ℚ))) = 0 := by simp
    rw [hrel]
    unfold skipTestFn
    rw [isAcute_zero, Bool.false_and]
    simp
  have hp := List.getElem?_eq_getElem (show 0 < pts.length by omega)
  obtain ⟨m, hm⟩ : ∃ m, pts.length = m + 1 := ⟨pts.length - 1, by omega⟩
  obtain ⟨res0, hres0⟩ :=
    processPathAux_total ops buffer pts h2 pts.length 0 0 ⟨0, [], []⟩
      (by omega)
  have hres0orig := hres0
  rw [hm] at hres0
  rw [processPathAux_step_accept ops buffer pts 0 m 0 ⟨0, [], []⟩ a hA _ hp
    hskip] at hres0
  obtain ⟨⟨tf, htf⟩, hlen⟩ :=
    processPathAux_grows ops buffer pts m 1 a _ res0 hres0
  have htf2 : res0.faces = [(0, 2, 3), (3, 1, 0)] ++ tf := htf
  have hlen2 : 4 ≤ res0.vertices.length := hlen
  refine ⟨{res0 with faces :=
      pathSegmentLastFace res0.faces ((res0.vertices.length / 4 : ℕ) : ℤ)},
    ?_, ?_, ?_⟩
  · unfold processPath
    rw [hres0orig]
    rfl
  · exact hlen2
  · show (pathSegmentLastFace res0.faces _).take 2 = _
    rw [pathSegmentLastFace, htf2]
    rfl

/-- Witness for `processPath_first_station_accepted` on a concrete
two-point track. -/
theorem processPath_first_station_accepted_app :
    4 ≤ ((processPath zeroOps 1 [⟨0, 0, 5⟩, ⟨3, 0, 5⟩]).getD
      default).vertices.length ∧
    ((processPath zeroOps 1 [⟨0, 0, 5⟩, ⟨3, 0, 5⟩]).getD
      default).faces.take 2 = [(0, 2, 3), (3, 1, 0)] := by
  obtain ⟨res, hres, h4, htake⟩ :=
    processPath_first_station_accepted zeroOps 1 [⟨0, 0, 5⟩, ⟨3, 0, 5⟩]
      (by norm_num)
  rw [hres]
  exact ⟨h4, htake⟩

/-! ## STL emitter (`ModelCode.generateSTL`) -/

/-- A fitted marker `{location, orientation}` carried by the artifact. -/
structure FitMarker where
  location : ℚ × ℚ × ℚ
  orientation : ℚ
deriving DecidableEq

/-- The `ModelCode` artifact: the raw vertex, face and marker data plus
`options.markerWidth = 2*buffer + 2`.  (The pre-formatted SCAD strings
are derived presentation data and are not modelled.) -/
structure ModelCode where
  rawPoints : List (ℚ × ℚ × ℚ)
  rawFaces : List (ℤ × ℤ × ℤ)
  rawMarkers : List FitMarker
  markerWidth : ℚ
deriving DecidableEq

/-- The 80-byte STL banner of `generateSTL`. -/
def stlBanner : String := "STL gerado por GPXtruder Modern"

/-- The 80 header bytes: banner character codes padded with zeros
(`view.setUint8(i, i < header.length ? header.charCodeAt(i) : 0)`). -/
def stlHeaderBytes : List ℕ :=
  (List.range 80).map (fun i =>
    match stlBanner.toList[i]? with
    | some c => c.toNat
    | none => 0)

/-- Little-endian bytes of `DataView.setUint32(·, n, true)`; JavaScript
truncates the value to 32 bits first. -/
def uint32LE (n : ℕ) : List ℕ :=
  [n % 2 ^ 32 % 256, n % 2 ^ 32 / 256 % 256,
   n % 2 ^ 32 / 256 ^ 2 % 256, n % 2 ^ 32 / 256 ^ 3 % 256]

/-- `this.rawPoints[idx]` for a face index: `none` models the
`TypeError` thrown on an out-of-range index (`undefined[0]`). -/
def vAt (points : List (ℚ × ℚ × ℚ)) (idx : ℤ) : Option (ℚ × ℚ × ℚ) :=
  if h : 0 ≤ idx ∧ idx.toNat < points.length then
    some (points.get ⟨idx.toNat, h.2⟩)
  else none

/-- One 50-byte triangle record: normal (normalised cross product of
`(v1−v0) × (v2−v0)`, left unnormalised when its length is not
positive), the three vertices, and the 2-byte attribute count `0`. -/
def triRecord (ops : FloatOps) (points : List (ℚ × ℚ × ℚ))
    (f : ℤ × ℤ × ℤ) : Option (List ℕ) :=
  match vAt points f.1, vAt points f.2.1, vAt points f.2.2 with
  | some v0, some v1, some v2 =>
    let ux := v1.1 - v0.1
    let uy := v1.2.1 - v0.2.1
    let uz := v1.2.2 - v0.2.2
    let vx := v2.1 - v0.1
    let vy := v2.2.1 - v0.2.1
    let vz := v2.2.2 - v0.2.2
    let nx := uy * vz - uz * vy
    let ny := uz * vx - ux * vz
    let nz := ux * vy - uy * vx
    let len := ops.sqrt (nx * nx + ny * ny + nz * nz)
    let nx2 := if 0 < len then nx / len else nx
    let ny2 := if 0 < len then ny / len else ny
    let nz2 := if 0 < len then nz / len else nz
    some (ops.f32 nx2 ++ ops.f32 ny2 ++ ops.f32 nz2 ++
      ops.f32 v0.1 ++ ops.f32 v0.2.1 ++ ops.f32 v0.2.2 ++
      ops.f32 v1.1 ++ ops.f32 v1.2.1 ++ ops.f32 v1.2.2 ++
      ops.f32 v2.1 ++ ops.f32 v2.2.1 ++ ops.f32 v2.2.2 ++ [0, 0])
  | _, _, _ => none

/-- `generateSTL()` of `ModelCode`: the buffer is allocated with
exactly `84 + 50·N` bytes and written sequentially — 80 header bytes,
the little-endian triangle count at offset 80, then one 50-byte record
per triangle. -/
def generateSTLBytes (ops : FloatOps) (points : List (ℚ × ℚ × ℚ))
    (faces : List (ℤ × ℤ × ℤ)) : Option (List ℕ) :=
  (faces.mapM (triRecord ops points)).map (fun recs =>
    stlHeaderBytes ++ uint32LE faces.length ++ recs.join)

/-- `mc.generateSTL()`. -/
def ModelCode.generateSTL (ops : FloatOps) (mc : ModelCode) :
    Option (List ℕ) :=
  generateSTLBytes ops mc.rawPoints mc.rawFaces

/-- Reading back a 4-byte little-endian unsigned integer at `off`. -/
def readUint32LE (l : List ℕ) (off : ℕ) : ℕ :=
  l.getD off 0 + 256 * l.getD (off + 1) 0 +
    65536 * l.getD (off + 2) 0 + 16777216 * l.getD (off + 3) 0

theorem stlHeaderBytes_length : stlHeaderBytes.length = 80 := by
  simp [stlHeaderBytes]

theorem triRecord_isSome (ops : FloatOps) (points : List (ℚ × ℚ × ℚ))
    (f : ℤ × ℤ × ℤ) (hf32 : ∀ x, (ops.f32 x).length = 4)
    (hok : faceOk (points.length : ℤ) f) :
    ∃ r, triRecord ops points f = some r ∧ r.length = 50 := by
  obtain ⟨h1, h2, h3, h4, h5, h6⟩ := hok
  unfold triRecord vAt
  rw [dif_pos ⟨h1, by omega⟩, dif_pos ⟨h3, by omega⟩, dif_pos ⟨h5, by omega⟩]
  refine ⟨_, rfl, ?_⟩
  simp [List.length_append, hf32]

theorem mapM_triRecord (ops : FloatOps) (points : List (ℚ × ℚ × ℚ))
    (hf32 : ∀ x, (ops.f32 x).length = 4) :
    ∀ faces : List (ℤ × ℤ × ℤ),
      (∀ f ∈ faces, faceOk (points.length : ℤ) f) →
      ∃ recs, faces.mapM (triRecord ops points) = some recs ∧
        recs.length = faces.length ∧ ∀ r ∈ recs, r.length = 50 := by
  intro faces
  induction faces with
  | nil =>
    intro _
    exact ⟨[], rfl, rfl, by simp⟩
  | cons f fs ih =>
    intro hall
    obtain ⟨r, hr, hrlen⟩ :=
      triRecord_isSome ops points f hf32 (hall f (by simp))
    obtain ⟨recs, hrecs, hlen, hall50⟩ := ih (fun g hg => hall g (by simp [hg]))
    refine ⟨r :: recs, ?_, by simp [hlen], ?_⟩
    · rw [List.mapM_cons, hr, hrecs]
      rfl
    · intro x hx
      rcases List.mem_cons.mp hx with rfl | hx
      · exact hrlen
      · exact hall50 x hx

theorem join_length_const {l : List (List ℕ)} (h : ∀ r ∈ l, r.length = 50) :
    l.join.length = 50 * l.length := by
  induction l with
  | nil => simp
  | cons x xs ih =>
    simp only [List.join_cons, List.length_append, List.length_cons]
    rw [h x (by simp), ih (fun r hr => h r (by simp [hr]))]
    ring

/-- C7: for a mesh whose `N` triangles index only existing vertices
(`N < 2³²`, the DataView truncation bound; a JavaScript array cannot be
longer), `generateSTL` returns a buffer of exactly `84 + 50·N` bytes
whose little-endian `Uint32` at offset 80 equals `N`.  Assumes only
that the float32 encoding emits 4 bytes per value. -/
theorem generateSTL_layout (ops : FloatOps) (mc : ModelCode)
    (hf32 : ∀ x, (ops.f32 x).length = 4)
    (hidx : ∀ f ∈ mc.rawFaces, faceOk (mc.rawPoints.length : ℤ) f)
    (hN : mc.rawFaces.length < 2 ^ 32) :
    ∃ buf, ModelCode.generateSTL ops mc = some buf ∧
      buf.length = 84 + 50 * mc.rawFaces.length ∧
      readUint32LE buf 80 = mc.rawFaces.length := by
  obtain ⟨recs, hrecs, hlen, hall50⟩ :=
    mapM_triRecord ops mc.rawPoints hf32 mc.rawFaces hidx
  have hu4 : (uint32LE mc.rawFaces.length).length = 4 := by
    simp [uint32LE]
  unfold ModelCode.generateSTL generateSTLBytes
  rw [hrecs]
  refine ⟨_, rfl, ?_, ?_⟩
  · show (stlHeaderBytes ++ uint32LE mc.rawFaces.length ++ recs.join).length = _
    rw [List.length_append, List.length_append, stlHeaderBytes_length, hu4,
      join_length_const hall50, hlen]
  · have hsplit : ∀ k, k < 4 →
        (stlHeaderBytes ++ uint32LE mc.rawFaces.length ++ recs.join).getD
          (80 + k) 0 = (uint32LE mc.rawFaces.length).getD k 0 := by
      intro k hk
      rw [List.append_assoc]
      rw [List.getD_append_right _ _ _ _ (by rw [stlHeaderBytes_length]; omega)]
      rw [stlHeaderBytes_length]
      rw [List.getD_append _ _ _ _ (by rw [hu4]; omega)]
      congr 1
      omega
    have h0 := hsplit 0 (by norm_num)
    rw [Nat.add_zero] at h0
    have h1 := hsplit 1 (by norm_num)
    have h2 := hsplit 2 (by norm_num)
    have h3 := hsplit 3 (by norm_num)
    show (stlHeaderBytes ++ uint32LE mc.rawFaces.length ++ recs.join).getD 80 0 +
        256 * (stlHeaderBytes ++ uint32LE mc.rawFaces.length ++ recs.join).getD (80 + 1) 0 +
        65536 * (stlHeaderBytes ++ uint32LE mc.rawFaces.length ++ recs.join).getD (80 + 2) 0 +
        16777216 * (stlHeaderBytes ++ uint32LE mc.rawFaces.length ++ recs.join).getD (80 + 3) 0 =
      mc.rawFaces.length
    rw [h0, h1, h2, h3]
    have e0 : (uint32LE mc.rawFaces.length).getD 0 0 =
        mc.rawFaces.length % 2 ^ 32 % 256 := rfl
    have e1 : (uint32LE mc.rawFaces.length).getD 1 0 =
        mc.rawFaces.length % 2 ^ 32 / 256 % 256 := rfl
    have e2 : (uint32LE mc.rawFaces.length).getD 2 0 =
        mc.rawFaces.length % 2 ^ 32 / 256 ^ 2 % 256 := rfl
    have e3 : (uint32LE mc.rawFaces.length).getD 3 0 =
        mc.rawFaces.length % 2 ^ 32 / 256 ^ 3 % 256 := rfl
    rw [e0, e1, e2, e3]
    have p1 : (2 : ℕ) ^ 32 = 4294967296 := by norm_num
    have p2 : (256 : ℕ) ^ 2 = 65536 := by norm_num
    have p3 : (256 : ℕ) ^ 3 = 16777216 := by norm_num
    rw [p1, p2, p3]
    rw [p1] at hN
    omega

/-- A one-triangle mesh used to witness the STL layout theorem. -/
def stlMC : ModelCode :=
  ⟨[(0, 0, 0), (1, 0, 0), (0, 1, 0)], [(0, 1, 2)], [], 4⟩

/-- Witness for `generateSTL_layout` on a one-triangle mesh. -/
theorem generateSTL_layout_app :
    ((ModelCode.generateSTL zeroOps stlMC).getD []).length = 84 + 50 * 1 ∧
    readUint32LE ((ModelCode.generateSTL zeroOps stlMC).getD []) 80 = 1 := by
  obtain ⟨buf, hbuf, hlen, hread⟩ := generateSTL_layout zeroOps stlMC
    (fun _ => rfl)
    (by
      intro f hf
      simp [stlMC] at hf
      subst hf
      exact ⟨by norm_num, by norm_num [stlMC], by norm_num,
        by norm_num [stlMC], by norm_num, by norm_num [stlMC]⟩)
    (by norm_num [stlMC])
  rw [hbuf]
  exact ⟨by simpa [stlMC] using hlen, by simpa [stlMC] using hread⟩

/-! ## Bounds and geometry helpers (`src/js/utils.js`) -/

/-- `Bounds` over planar points. -/
structure Bounds where
  minx : ℚ
  maxx : ℚ
  miny : ℚ
  maxy : ℚ
  minz : ℚ
  maxz : ℚ
deriving DecidableEq

/-- `new Bounds(xyz)`. -/
def Bounds.init (p : OutPt) : Bounds :=
  ⟨p.x, p.x, p.y, p.y, p.z, p.z⟩

/-- `Bounds.update(xyz)`. -/
def Bounds.update (b : Bounds) (p : OutPt) : Bounds :=
  { minx := if p.x < b.minx then p.x else b.minx,
    maxx := if p.x > b.maxx then p.x else b.maxx,
    miny := if p.y < b.miny then p.y else b.miny,
    maxy := if p.y > b.maxy then p.y else b.maxy,
    minz := if p.z < b.minz then p.z else b.minz,
    maxz := if p.z > b.maxz then p.z else b.maxz }

/-- `Bounds.center()`. -/
def Bounds.center (b : Bounds) : ℚ × ℚ :=
  ((b.minx + b.maxx) / 2, (b.miny + b.maxy) / 2)

/-- `calcOffsets(bounds, zcut)`. -/
def calcOffsets (b : Bounds) (zcut : Bool) : ℚ × ℚ × ℚ :=
  let xy := b.center
  let zoffset : ℚ :=
    if zcut = true ∨ b.minz ≤ 0 then ((⌊b.minz - 1⌋ : ℤ) : ℚ) else 0
  (xy.1, xy.2, zoffset)

/-- `calcScale(bed, xextent, yextent)`.  (JavaScript divides by a zero
extent to `Infinity`, which `Math.min` then discards; `ℚ` division by
zero yields `0` instead — no claim exercises a zero extent.) -/
def calcScale (bed : ℚ × ℚ) (xextent yextent : ℚ) : ℚ :=
  min (bed.1 / xextent) (bed.2 / yextent)

/-- `scaleBounds(bounds, bed)`. -/
def scaleBounds (b : Bounds) (bed : ℚ × ℚ) : ℚ :=
  calcScale bed (b.maxx - b.minx) (b.maxy - b.miny)

/-- `ModelGenerator._projectPoint` /  `PointProjector`: linear, ring or
map projection of one point (`proj` is the proj4 forward transform the
projector was initialised with). -/
def projectPoint (ops : FloatOps) (proj : ℚ × ℚ → ℚ × ℚ)
    (shapetype : ℕ) (distance ringRadius : ℚ) (v : Pt3) (cdr : ℚ) :
    OutPt :=
  if shapetype = 1 then ⟨0, cdr * distance, v.ele⟩
  else if shapetype = 2 then
    ⟨ringRadius * ops.cos (2 * ops.pi * cdr),
     ringRadius * ops.sin (2 * ops.pi * cdr), v.ele⟩
  else ⟨(proj (v.lon, v.lat)).1, (proj (v.lon, v.lat)).2, v.ele⟩

/-- The loop of `_projectPoints` over the kept points after the first,
paired with their kept-to-kept distances (`ctx.ll[i]` with
`ctx.d[i-1]`). -/
def projectPointsAux (projPt : Pt3 → ℚ → OutPt) (smoothTotal : ℚ)
    (steps : List (Pt3 × ℚ)) (cd : ℚ) (b : Bounds) (acc : List OutPt) :
    Bounds × List OutPt :=
  match steps with
  | [] => (b, acc)
  | (p, dd) :: rest =>
    projectPointsAux projPt smoothTotal rest (cd + dd)
      (b.update (projPt p ((cd + dd) / smoothTotal)))
      (acc ++ [projPt p ((cd + dd) / smoothTotal)])

/-! ## Option collection (`collectOptions` of `app.js`) and the full
generation pipeline -/

/-- `x || d` on finite numbers (the `parseFloat(v) || d` idiom): `0`
is falsy and falls back to the default.  (A non-numeric input parses
to `NaN`, also falsy; `NaN` lies outside the `ℚ` embedding.) -/
def jsOr (x d : ℚ) : ℚ :=
  if x = 0 then d else x

/-- The form values `collectOptions` reads, numeric fields already
parsed from their input elements. -/
structure FormInput where
  pathWidth : ℚ
  vertical : ℚ
  width : ℚ
  depth : ℚ
  base : ℚ
  zoverrideChecked : Bool
  zcutChecked : Bool
  zconstant : ℚ
  regionfitChecked : Bool
  eastMin : ℚ
  eastMax : ℚ
  northMin : ℚ
  northMax : ℚ
  shapetype : ℕ
  projtypeRadio : ℕ
  projectionStr : String
  markerType : ℕ
  markerIntervalVal : ℚ
  smoothRadio : ℕ
  mindistVal : ℚ
deriving DecidableEq

/-- `getMarkerInterval(type)`. -/
def getMarkerInterval (ty : ℕ) (v : ℚ) : ℚ :=
  if ty = 0 then 0
  else if ty = 1 then 1000
  else if ty = 2 then 1609
  else jsOr v 1000

/-- The options record `collectOptions` assembles before validating. -/
def buildOptions (f : FormInput) : Options :=
  { buffer := f.pathWidth / 2,
    vertical := f.vertical,
    bedx := f.width,
    bedy := f.depth,
    base := f.base,
    zcut := if f.zoverrideChecked then false else f.zcutChecked,
    zoverride := f.zoverrideChecked,
    zconstant := jsOr f.zconstant 100,
    regionfit := f.regionfitChecked,
    region_minx := jsOr f.eastMin 0,
    region_maxx := jsOr f.eastMax 0,
    region_miny := jsOr f.northMin 0,
    region_maxy := jsOr f.northMax 0,
    shapetype := f.shapetype,
    projtype := f.projtypeRadio,
    projection := f.projectionStr,
    markerInterval := getMarkerInterval f.markerType f.markerIntervalVal,
    smoothtype := f.smoothRadio,
    smoothspan := jsOr f.mindistVal 10 }

/-- `collectOptions()`: build the record, then validate; `none` models
the `return null` taken on any range violation (the `!isFinite`
disjuncts guard `NaN`, which `ℚ` cannot produce). -/
def collectOptions (f : FormInput) : Option Options :=
  if (buildOptions f).vertical < 1 then none
  else if (buildOptions f).bedx < 20 then none
  else if (buildOptions f).bedy < 20 then none
  else if (buildOptions f).buffer < 1 / 2 then none
  else if (buildOptions f).projtype = 1 ∧
      (buildOptions f).projection.trim = "" then none
  else some (buildOptions f)

/-- The error outcomes of `ModelGenerator.generate`: the explicit
`"Projeção de mapa não reconhecida."` throw, or a JavaScript
`TypeError`/unrepresentable-`NaN` situation. -/
inductive GenError where
  | unknownProjection
  | crash
deriving DecidableEq

/-- The artifact `generate` returns:
`{ code, bounds, distance, outputPoints, scale, bed }`. -/
structure GenResult where
  code : ModelCode
  bounds : Bounds
  distance : ℚ
  outputPoints : List OutPt
  scale : ℚ
  bedOut : ℚ × ℚ
deriving DecidableEq

/-- `ModelGenerator.generate(pts, options, …)`: scan, project, fit and
build, composed in source order.  `proj4lib` abstracts the external
proj4 library (a name resolving to a forward transform, or `none` when
the definition is not recognised); `dist` abstracts `distVincenty`
(whose `NaN` divergence `ℚ` cannot carry). -/
def generate (ops : FloatOps) (proj4lib : String → Option (ℚ × ℚ → ℚ × ℚ))
    (dist : Pt3 → Pt3 → ℚ) (options : Options) (pts : List Pt3) :
    Except GenError GenResult :=
  let bed : ℚ × ℚ :=
    (options.bedx - 2 * options.buffer, options.bedy - 2 * options.buffer)
  match pts with
  | [] => .error .crash
  | p0 :: rest =>
    match scanPoints dist options.markerInterval (p0 :: rest) with
    | none => .error .crash
    | some st =>
      let distance := st.totaldist
      let ringRadius := distance / (ops.pi * 2)
      let opts2 := optionsAfterScan options st
      match proj4lib opts2.projection with
      | none => .error .unknownProjection
      | some projFwd =>
        let projPt := projectPoint ops projFwd opts2.shapetype distance ringRadius
        -- marker projection; the final segment's out-of-range
        -- `rawpointcd[seg]` read is NaN in JS, `getD _ 0` here
        let markers := st.markers.map (fun m =>
          ((projPt m.loc (m.pos / distance)),
            vectorAngle ops
              (projPt ((p0 :: rest).getD (m.seg - 1) p0)
                (st.rawpointcd.getD (m.seg - 1) 0 / distance))
              (projPt ((p0 :: rest).getD m.seg p0)
                (st.rawpointcd.getD m.seg 0 / distance))))
        let smoothRes : Except GenError ℚ :=
          if opts2.smoothtype = 0 then
            if opts2.shapetype = 0 then
              match proj4lib "GOOGLE" with
              | none => .error .crash
              | some g =>
                let minGeo := g (st.minLon, st.minLat)
                let maxGeo := g (st.maxLon, st.maxLat)
                .ok ((⌊opts2.buffer / calcScale bed (maxGeo.1 - minGeo.1)
                  (maxGeo.2 - minGeo.2)⌋ : ℤ) : ℚ)
            else if opts2.shapetype = 1 then
              .ok ((⌊opts2.buffer / calcScale bed distance 0⌋ : ℤ) : ℚ)
            else if opts2.shapetype = 2 then
              .ok ((⌊opts2.buffer / calcScale bed (2 * ringRadius)
                (2 * ringRadius)⌋ : ℤ) : ℚ)
            else .error .crash
          else .ok opts2.smoothspan
        match smoothRes with
        | .error e => .error e
        | .ok smoothingDistance =>
          match distFilter dist smoothingDistance p0 rest with
          | (ll, d, smoothTotal) =>
            match ll with
            | [] => .error .crash
            | l0 :: lrest =>
              let xyz := projPt l0 0
              let pr := projectPointsAux projPt smoothTotal (lrest.zip d) 0
                (Bounds.init xyz) [xyz]
              let bounds1 :=
                if opts2.regionfit then { pr.1 with maxx := opts2.region_maxx, minx := opts2.region_minx, maxy := opts2.region_maxy, miny := opts2.region_miny }
                else pr.1
              let offset := calcOffsets bounds1 opts2.zcut
              let scale := scaleBounds bounds1 bed
              let zscaleRes : Except GenError ℚ :=
                if opts2.projtype = 1 then
                  match distVincenty ops bounds1.miny bounds1.minx
                      bounds1.maxy bounds1.minx with
                  | none => .error .crash
                  | some dv => .ok (bed.2 / dv)
                else .ok scale
              match zscaleRes with
              | .error e => .error e
              | .ok zscale =>
                let fit := fun (v : OutPt) =>
                  (⟨scale * (v.x - offset.1), scale * (v.y - offset.2.1),
                    zscale * (v.z - offset.2.2) * opts2.vertical +
                      opts2.base⟩ : OutPt)
                let outputPoints := pr.2.map fit
                let markersFit := markers.map (fun m =>
                  FitMarker.mk ((fit m.1).x, (fit m.1).y, (fit m.1).z) m.2)
                match processPath ops opts2.buffer outputPoints with
                | none => .error .crash
                | some code =>
                  .ok { code := ⟨code.vertices, code.faces, markersFit,
                          2 * opts2.buffer + 2⟩,
                        bounds := bounds1, distance := distance,
                        outputPoints := outputPoints, scale := scale,
                        bedOut := (options.bedx, options.bedy) }

/-- The generation entry path of `app.js` (`generateModel`): collect
and validate the options; only on success is the generator invoked. -/
def runGeneration (ops : FloatOps)
    (proj4lib : String → Option (ℚ × ℚ → ℚ × ℚ))
    (dist : Pt3 → Pt3 → ℚ) (f : FormInput) (pts : List Pt3) :
    Option (Except GenError GenResult) :=
  (collectOptions f).map (fun opts => generate ops proj4lib dist opts pts)

theorem collectOptions_rejects_vertical (f : FormInput)
    (hv : f.vertical < 1) : collectOptions f = none := by
  have hb : (buildOptions f).vertical = f.vertical := rfl
  unfold collectOptions
  rw [hb, if_pos hv]

/-- C3: an options record violating the stated `vertical ≥ 1` range is
rejected by the validation with a single returned error value (`null`),
and the generator is never invoked, so no (partial) artifact exists. -/
theorem generate_invalid_vertical_no_artifact (ops : FloatOps)
    (proj4lib : String → Option (ℚ × ℚ → ℚ × ℚ))
    (dist : Pt3 → Pt3 → ℚ) (f : FormInput) (pts : List Pt3)
    (hv : f.vertical < 1) :
    collectOptions f = none ∧
    runGeneration ops proj4lib dist f pts = none := by
  have hc := collectOptions_rejects_vertical f hv
  refine ⟨hc, ?_⟩
  unfold runGeneration
  rw [hc]
  rfl

/-- A form input with an out-of-range vertical exaggeration. -/
def badVerticalForm : FormInput :=
  { pathWidth := 4, vertical := 1 / 2, width := 100, depth := 100,
    base := 1, zoverrideChecked := false, zcutChecked := true,
    zconstant := 100, regionfitChecked := false, eastMin := 0,
    eastMax := 0, northMin := 0, northMax := 0, shapetype := 1,
    projtypeRadio := 0, projectionStr := "", markerType := 0,
    markerIntervalVal := 0, smoothRadio := 1, mindistVal := 10 }

/-- Witness for `generate_invalid_vertical_no_artifact`. -/
theorem generate_invalid_vertical_no_artifact_app :
    collectOptions badVerticalForm = none ∧
    runGeneration zeroOps (fun _ => none) (fun _ _ => 0)
      badVerticalForm [⟨0, 0, 0⟩, ⟨1, 0, 0⟩] = none :=
  generate_invalid_vertical_no_artifact zeroOps (fun _ => none)
    (fun _ _ => 0) badVerticalForm [⟨0, 0, 0⟩, ⟨1, 0, 0⟩]
    (by norm_num [badVerticalForm])
